import Mathlib

/-!
Verification of `cjt_helper_update.py`, a native-messaging update helper.

Shallow embedding conventions:
* Bytes are `Nat` values (< 256 in intended use); a byte stream is `List Nat`.
* JSON decoding (`json.loads`) is abstracted as a parameter
  `decode : List Nat → Option Command`; `none` models a raised
  `json.JSONDecodeError` (uncaught, hence fatal for the process).
* Filesystem paths appearing in the safety guard are modelled structurally as
  `PPath`: an absolute/relative flag plus a list of already-normalized path
  segments (no `.`/`..`/empty segments), since `ensure_clean_target_dir`
  operates on the results of `os.path` functions over such paths.
  `os.path.expanduser`/`os.path.expandvars` for string paths in
  `normalize_path` are abstracted as components of an `OSModel`.
* The shared `threading.Event` cancellation flag is modelled as a Boolean
  function of the checkpoint counter (the value the flag has when the n-th
  cooperative checkpoint reads it); it is monotone in real executions.
* `int(a * 100 / b)` on the nonnegative integers involved is floor division,
  embedded as `Nat` division.
-/

/-- One byte of the message body / length prefix. -/
abbrev Byte := Nat

/-- Inbound command object, the fields the program reads via `message.get`.
`none` models an absent key. -/
structure Command where
  cmd : Option String
  downloadUrl : Option String
  targetDir : Option String
  path : Option String
deriving DecidableEq, Repr

/-- A structural path: `abs` is whether the path is absolute, `segs` its
normalized segments.  `⟨true, ["home", "u"]⟩` stands for `/home/u`. -/
structure PPath where
  abs : Bool
  segs : List String
deriving DecidableEq, Repr

/-- Outbound status message (the payloads of `send_message`). -/
inductive Status where
  | progress (phase : String) (percent : Nat) (text : String)
  | log (text : String)
  | complete (path : PPath)
  | canceled (text : String)
  | error (text : String)
  | checkInstallDir (ok : Bool) (path : String) (text : Option String)
deriving DecidableEq, Repr

/-- Abstraction of the `os` functions used by `normalize_path` and
`check_install_dir` on string paths. -/
structure OSModel where
  expandvars : String → String
  expanduser : String → String
  isdir : String → Bool

/-- Result of one `read_message` call: `eos` is the `None` return (end of
stream), `fatal` an uncaught exception (`struct.error` or JSON decode error),
`msg` a parsed message. -/
inductive ReadResult where
  | eos
  | fatal (e : String)
  | msg (c : Command)
deriving DecidableEq, Repr

/-- `struct.unpack('<I', b)` for a 4-byte little-endian prefix. -/
def decodeLE32 (b : List Byte) : Nat :=
  match b with
  | [b0, b1, b2, b3] => b0 + 256 * b1 + 65536 * b2 + 16777216 * b3
  | _ => 0

/-- `read_message` (source lines 50–59).  `sys.stdin.buffer.read(n)` is
`input.take n`: it yields up to `n` bytes, fewer only at end of stream.
Returns the result together with the unread remainder of the stream. -/
def read_message (decode : List Byte → Option Command) (input : List Byte) :
    ReadResult × List Byte :=
  let rawLength := input.take 4
  if rawLength.isEmpty then
    (.eos, input)
  else if rawLength.length < 4 then
    (.fatal "struct.error: unpack requires a buffer of 4 bytes", [])
  else
    let messageLength := decodeLE32 rawLength
    let messageData := (input.drop 4).take messageLength
    if messageData.isEmpty then
      (.eos, (input.drop 4).drop messageLength)
    else
      match decode messageData with
      | none => (.fatal "json.decoder.JSONDecodeError", [])
      | some c => (.msg c, (input.drop 4).drop messageLength)

/-- `str.lower()` restricted to the characters that occur here (ASCII). -/
def strLower (s : String) : String :=
  String.mk (s.data.map Char.toLower)

/-- `os.path.commonpath([t, s]) == s` for normalized paths: `s` is a segment
prefix of `t`.  (`commonpath` itself raises on an absolute/relative mix,
handled by the caller.) -/
def segsUnder : List String → List String → Bool
  | [], _ => true
  | _ :: _, [] => false
  | a :: as, b :: bs => a == b && segsUnder as bs

/-- Outcome of `ensure_clean_target_dir`. -/
inductive CleanResult where
  | created
  | skippedError
  | skippedUnsafe
  | cleaned
deriving DecidableEq, Repr

/-- `ensure_clean_target_dir` (source lines 124–156) over the structural path
model.  `home` is `os.path.expanduser('~')` (an absolute path's segments),
`targetExists` is `os.path.exists(target_dir)`, `contents` the direct children
of the target directory.  Returns the outcome tag and the resulting contents.
`os.path.commonpath` raises (caught, logged, skipped) when the two paths mix
absolute and relative; the safe root is absolute, so a relative target takes
that branch.  Child removal (`shutil.rmtree` / `os.remove`) is modelled as
always succeeding; the `RuntimeError` re-raise on a removal failure is outside
every claim considered here. -/
def ensure_clean_target_dir (home : List String) (targetExists : Bool)
    (target : PPath) (contents : List String) : CleanResult × List String :=
  if !targetExists then
    (.created, [])
  else
    let safeRoot := home ++ [".cjt-helper"]
    if !target.abs then
      (.skippedError, contents)
    else
      let isUnderSafeRoot := segsUnder safeRoot target.segs
      let allowByName := strLower (target.segs.getLastD "") == "cjt-helper"
      if !isUnderSafeRoot && !allowByName then
        (.skippedUnsafe, contents)
      else
        (.cleaned, [])

/-- `normalize_path` (source lines 159–163). `if not path` is the emptiness
test on strings. -/
def normalize_path (os : OSModel) (path : String) : String :=
  if path.isEmpty then "" else os.expanduser (os.expandvars path)

/-- `check_install_dir` (source lines 166–173): `(ok, normalized, errorText)`. -/
def check_install_dir (os : OSModel) (path : String) : Bool × String × String :=
  let normalized := normalize_path os path
  if normalized.isEmpty then
    (false, "", "目录为空")
  else if os.isdir normalized then
    (true, normalized, "")
  else
    (false, normalized, "目录不存在或不是文件夹")

/-- The mutable state the session loop touches: whether `update_thread` holds
a live thread, and the `cancel_event` flag. -/
structure HostState where
  updateThreadAlive : Bool
  cancelEvent : Bool
deriving DecidableEq, Repr

/-- One dispatch step of `main` (source lines 231–262): the synchronous state
change and the status messages the loop itself sends for one command.
Statuses produced asynchronously by the spawned update thread are modelled
separately by `handleStartUpdate`.  `write_log` is a side channel and not
modelled. -/
def step (os : OSModel) (s : HostState) (m : Command) : HostState × List Status :=
  match m.cmd with
  | some "start_update" =>
    if s.updateThreadAlive then
      (s, [.error "已有更新任务正在执行"])
    else
      ({ updateThreadAlive := true, cancelEvent := false }, [])
  | some "cancel_update" =>
    ({ s with cancelEvent := true }, [.log "已发送取消指令"])
  | some "check_install_dir" =>
    let r := check_install_dir os (m.path.getD "")
    if r.1 then
      (s, [.checkInstallDir true r.2.1 none])
    else
      (s, [.checkInstallDir false r.2.1 (some r.2.2)])
  | _ =>
    (s, [.error "未知指令"])

/-- Outcome of one pipeline step inside the update thread: normal return,
`UpdateCanceled` raised, or another exception raised. -/
inductive StepResult where
  | ok
  | canceled (t : String)
  | failed (t : String)
deriving DecidableEq, Repr

/-- `CHUNK_SIZE = 64 * 1024` (source line 17). -/
def CHUNK_SIZE : Nat := 64 * 1024

/-- The download progress text `f'正在下载更新包（{percent}%）'`. -/
def dlText (percent : Nat) : String :=
  "正在下载更新包（" ++ toString percent ++ "%）"

/-- The extract progress text `f'正在解压更新包（{percent}%）'`. -/
def exText (percent : Nat) : String :=
  "正在解压更新包（" ++ toString percent ++ "%）"

/-- Outcome of the final `response.read` of the download loop: an empty chunk
breaks the loop normally unless the read raises `dlErr`. -/
def readEndResult : Option String → StepResult
  | some e => .failed e
  | none => .ok

/-- The `while True` loop of `download_with_progress` (source lines 69–93).
`chunks` are the successive nonempty results of `response.read(CHUNK_SIZE)`;
the end of the list is the empty chunk that breaks the loop, except that when
`dlErr = some e` the read at that point raises `e` instead (a network failure
mid-transfer; `dlErr` at the start of the list is subsumed by `chunks = []`).
`cancel idx` is the value of `cancel_event.is_set()` at the idx-th
pre-chunk checkpoint (the check runs on every iteration, so it is written
once per pattern here).  `int(downloaded * 100 / total)` on these nonnegative
quantities is floor division. -/
def downloadLoop (cancel : Nat → Bool) (total : Nat) (dlErr : Option String) :
    List Nat → Nat → Int → Nat → List Status × StepResult
  | [], _, _, idx =>
    if cancel idx then
      ([], .canceled "已取消自动更新")
    else
      ([], readEndResult dlErr)
  | c :: rest, downloaded, lastPercent, idx =>
    if cancel idx then
      ([], .canceled "已取消自动更新")
    else
      let downloaded2 := downloaded + c
      if 0 < total then
        let percent := downloaded2 * 100 / total
        if (percent : Int) ≠ lastPercent then
          let r := downloadLoop cancel total dlErr rest downloaded2 (percent : Int) (idx + 1)
          (.progress "download" percent (dlText percent) :: r.1, r.2)
        else
          downloadLoop cancel total dlErr rest downloaded2 lastPercent (idx + 1)
      else
        let r := downloadLoop cancel total dlErr rest downloaded2 lastPercent (idx + 1)
        if downloaded2 % (CHUNK_SIZE * 20) = 0 then
          (.progress "download" 0 "正在下载更新包..." :: r.1, r.2)
        else
          r

/-- `download_with_progress` (source lines 62–93): `total` is the parsed
`Content-Length` (0 when absent), `last_percent` starts at `-1`,
`downloaded` at 0. -/
def download_with_progress (cancel : Nat → Bool) (total : Nat)
    (chunks : List Nat) (dlErr : Option String) : List Status × StepResult :=
  downloadLoop cancel total dlErr chunks 0 (-1) 0

/-- The `for index, member in enumerate(members, 1)` loop of
`extract_with_progress` (source lines 103–113).  Returns the emitted
statuses, the members extracted into the target directory, and the outcome.
`index` is the 0-based count of members already processed. -/
def extractLoop (cancel : Nat → Bool) (total : Nat)
    (members : List String) (index : Nat) : List Status × List String × StepResult :=
  match members with
  | [] => ([], [], .ok)
  | m :: rest =>
    if cancel index then
      ([], [], .canceled "已取消自动更新")
    else
      let index2 := index + 1
      let percent := index2 * 100 / total
      let r := extractLoop cancel total rest index2
      (.progress "extract" percent (exText percent) :: r.1, m :: r.2.1, r.2.2)

/-- `extract_with_progress` (source lines 96–113): `members` are the archive
entries in order; a zero-member archive returns immediately. -/
def extract_with_progress (cancel : Nat → Bool) (members : List String) :
    List Status × List String × StepResult :=
  let total := members.length
  if total = 0 then ([], [], .ok)
  else extractLoop cancel total members 0

/-- `resolve_target_dir` (source lines 116–121) over the structural path
model: a provided `targetDir` (already expanded) is used, otherwise the
default `~/.cjt-helper/auto-update`. -/
def resolve_target_dir (home : List String) (targetDirField : Option PPath) : PPath :=
  match targetDirField with
  | some t => t
  | none => ⟨true, home ++ [".cjt-helper", "auto-update"]⟩

/-- Python truthiness of `message.get('downloadUrl')`: falsy when the key is
absent or the string empty. -/
def optFalsy : Option String → Bool
  | none => true
  | some s => s.isEmpty

/-- `handle_start_update` (source lines 176–211), the body of the update
thread.  Environment parameters: `home`, the cancellation flag as seen at the
download checkpoints (`cancelD`) and the extraction checkpoints (`cancelE`) —
two views of the one monotone `cancel_event` timeline — the response data
(`total`, `chunks`, `dlErr`), and the archive `members`.  Message parameters:
`url`, `targetDirField`.  Filesystem parameters: whether the target directory
exists and its contents.  Returns the statuses sent, and the final contents
of the target directory (`os.makedirs(..., exist_ok=True)` creates it empty
when absent; extraction appends the members).  The best-effort temp-dir
removal sends nothing and is not modelled. -/
def handle_start_update (home : List String) (cancelD cancelE : Nat → Bool)
    (total : Nat) (chunks : List Nat) (dlErr : Option String) (members : List String)
    (url : Option String) (targetDirField : Option PPath)
    (targetExists : Bool) (targetContents : List String) : List Status × List String :=
  if optFalsy url then
    ([.error "缺少下载地址"], if targetExists then targetContents else [])
  else
    let targetDir := resolve_target_dir home targetDirField
    let contents0 := if targetExists then targetContents else []
    let dl := download_with_progress cancelD total chunks dlErr
    match dl.2 with
    | .canceled t =>
      (Status.log "开始下载更新包..." :: dl.1 ++ [.canceled t], contents0)
    | .failed t =>
      (Status.log "开始下载更新包..." :: dl.1 ++ [.error t], contents0)
    | .ok =>
      let cl := ensure_clean_target_dir home true targetDir contents0
      let ex := extract_with_progress cancelE members
      match ex.2.2 with
      | .canceled t =>
        (Status.log "开始下载更新包..." :: dl.1
          ++ [Status.log "下载完成，开始解压..."] ++ ex.1 ++ [.canceled t],
         cl.2 ++ ex.2.1)
      | .failed t =>
        (Status.log "开始下载更新包..." :: dl.1
          ++ [Status.log "下载完成，开始解压..."] ++ ex.1 ++ [.error t],
         cl.2 ++ ex.2.1)
      | .ok =>
        (Status.log "开始下载更新包..." :: dl.1
          ++ [Status.log "下载完成，开始解压..."] ++ ex.1 ++ [.complete targetDir],
         cl.2 ++ ex.2.1)

/-- How the `while True` loop of `main` ends: a clean `break` on the
end-of-stream `None`, or an uncaught exception from `read_message`. -/
inductive LoopExit where
  | clean
  | fatalStop (e : String)
deriving DecidableEq, Repr

/-- The `while True` loop of `main` (source lines 227–262): repeatedly read a
frame and dispatch it, stopping cleanly when `read_message` returns `None`,
fatally on an uncaught `read_message` exception.  Returns all statuses the
loop itself sends (thread statuses are modelled by `handle_start_update`)
and how the loop ended. -/
def mainLoop (os : OSModel) (decode : List Byte → Option Command)
    (s : HostState) (input : List Byte) : List Status × LoopExit :=
  match h : read_message decode input with
  | (.eos, _) => ([], .clean)
  | (.fatal e, _) => ([], .fatalStop e)
  | (.msg c, rest) =>
    let p := step os s c
    let q := mainLoop os decode p.1 rest
    (p.2 ++ q.1, q.2)
termination_by input.length
decreasing_by
  simp only [read_message] at h
  split at h
  · simp at h
  · split at h
    · simp at h
    · split at h
      · simp at h
      · rename_i h1 h2 h3
        split at h
        · simp at h
        · rename_i c2 hdec
          have hrest : rest = (input.drop 4).drop (decodeLE32 (input.take 4)) := by
            cases h; rfl
          have hne : (input.drop 4).take (decodeLE32 (input.take 4)) ≠ [] := by
            simpa using h3
          have hlen : decodeLE32 (input.take 4) ≠ 0 ∧ input.drop 4 ≠ [] := by
            constructor
            · intro h0; exact hne (by simp [h0])
            · intro h0; exact hne (by simp [h0])
          have hdroplen : (input.drop 4).length ≤ input.length := by
            simp [List.length_drop]
          have hpos : 0 < (input.drop 4).length := List.length_pos.mpr hlen.2
          have hlt : rest.length < (input.drop 4).length := by
            rw [hrest, List.length_drop]
            exact Nat.sub_lt hpos (Nat.pos_of_ne_zero hlen.1)
          omega

/-- Predicate: the status is a `progress` message. -/
def isProgressStatus : Status → Bool
  | .progress _ _ _ => true
  | _ => false

/-- Number of `canceled` statuses in a transcript. -/
def countCanceled (l : List Status) : Nat :=
  (l.filter fun s => match s with | .canceled _ => true | _ => false).length

/-- Number of `error` statuses in a transcript. -/
def countError (l : List Status) : Nat :=
  (l.filter fun s => match s with | .error _ => true | _ => false).length

/-- Number of `complete` statuses in a transcript. -/
def countComplete (l : List Status) : Nat :=
  (l.filter fun s => match s with | .complete _ => true | _ => false).length

/-- The percentages carried by the `progress` statuses of a transcript,
in emission order. -/
def progressPercents (l : List Status) : List Nat :=
  l.filterMap fun s => match s with | .progress _ p _ => some p | _ => none

/-- Cumulative byte counts after each chunk, starting from `acc`. -/
def prefixSums : List Nat → Nat → List Nat
  | [], _ => []
  | c :: rest, acc => (acc + c) :: prefixSums rest (acc + c)

lemma downloadLoop_out_progress (cancel : Nat → Bool) (total : Nat) (dlErr : Option String) :
    ∀ (chunks : List Nat) (downloaded : Nat) (last : Int) (idx : Nat),
      ∀ s ∈ (downloadLoop cancel total dlErr chunks downloaded last idx).1,
        isProgressStatus s = true := by
  intro chunks
  induction chunks with
  | nil =>
    intro d l i s hs
    rw [downloadLoop] at hs
    split at hs <;> simp at hs
  | cons c rest ih =>
    intro d l i s hs
    rw [downloadLoop] at hs
    split at hs
    · simp at hs
    · simp only at hs
      split at hs
      · split at hs
        · rcases List.mem_cons.mp hs with h | h
          · subst h; rfl
          · exact ih _ _ _ s h
        · exact ih _ _ _ s hs
      · split at hs
        · rcases List.mem_cons.mp hs with h | h
          · subst h; rfl
          · exact ih _ _ _ s h
        · exact ih _ _ _ s hs

lemma counts_of_all_progress {l : List Status}
    (h : ∀ s ∈ l, isProgressStatus s = true) :
    countCanceled l = 0 ∧ countError l = 0 ∧ countComplete l = 0 := by
  induction l with
  | nil => simp [countCanceled, countError, countComplete]
  | cons a tl ih =>
    have ha := h a (List.mem_cons_self a tl)
    have htl := ih fun s hs => h s (List.mem_cons_of_mem a hs)
    cases a <;> simp [isProgressStatus] at ha ⊢ <;>
      simpa [countCanceled, countError, countComplete, List.filter] using htl

lemma countCanceled_append (l₁ l₂ : List Status) :
    countCanceled (l₁ ++ l₂) = countCanceled l₁ + countCanceled l₂ := by
  simp [countCanceled, List.filter_append]

lemma countError_append (l₁ l₂ : List Status) :
    countError (l₁ ++ l₂) = countError l₁ + countError l₂ := by
  simp [countError, List.filter_append]

lemma countComplete_append (l₁ l₂ : List Status) :
    countComplete (l₁ ++ l₂) = countComplete l₁ + countComplete l₂ := by
  simp [countComplete, List.filter_append]

/-- A download loop whose cancellation flag is never set cannot end canceled:
it either finishes or propagates the read failure. -/
lemma downloadLoop_no_cancel (total : Nat) (dlErr : Option String) :
    ∀ (chunks : List Nat) (downloaded : Nat) (last : Int) (idx : Nat),
      (downloadLoop (fun _ => false) total dlErr chunks downloaded last idx).2 =
        readEndResult dlErr := by
  intro chunks
  induction chunks with
  | nil =>
    intro d l i
    rw [downloadLoop]
    simp
  | cons c rest ih =>
    intro d l i
    rw [downloadLoop]
    simp only [Bool.false_eq_true, if_false]
    split
    · split
      · exact ih _ _ _
      · exact ih _ _ _
    · split
      · exact ih _ _ _
      · exact ih _ _ _

/-- If the cancellation flag is set at some checkpoint the loop reaches,
the download ends canceled. -/
lemma downloadLoop_canceled {cancel : Nat → Bool} (total : Nat) (dlErr : Option String) :
    ∀ (chunks : List Nat) (downloaded : Nat) (last : Int) (idx : Nat) (j : Nat),
      idx ≤ j → j ≤ idx + chunks.length → cancel j = true →
      (downloadLoop cancel total dlErr chunks downloaded last idx).2 =
        .canceled "已取消自动更新" := by
  intro chunks
  induction chunks with
  | nil =>
    intro d l i j hij hji hj
    have hii : i = j := by simp at hji; omega
    rw [downloadLoop]
    simp [hii ▸ hj]
  | cons c rest ih =>
    intro d l i j hij hji hj
    rw [downloadLoop]
    by_cases hci : cancel i = true
    · simp [hci]
    · have hne : i ≠ j := fun h => hci (h ▸ hj)
      have hij2 : i + 1 ≤ j := Nat.lt_of_le_of_ne hij hne
      have hji2 : j ≤ i + 1 + rest.length := by
        simp only [List.length_cons] at hji
        omega
      simp only [if_neg hci]
      split
      · split
        · exact ih _ _ _ j hij2 hji2 hj
        · exact ih _ _ _ j hij2 hji2 hj
      · split
        · exact ih _ _ _ j hij2 hji2 hj
        · exact ih _ _ _ j hij2 hji2 hj

/-- A concrete environment for the witnesses: identity expansions, no
directory exists. -/
def osFixture : OSModel := ⟨id, id, fun _ => false⟩

-- Smoke tests (concrete evaluations of the embedding).
example : (read_message (fun _ => none) [4, 0, 0, 0]).1 = ReadResult.eos := rfl
example : (read_message (fun _ => none) [0, 0, 0, 0, 9]).1 = ReadResult.eos := rfl
example : (read_message (fun _ => none) []).1 = ReadResult.eos := rfl
example : (read_message (fun _ => none) [1, 0]).1 =
    ReadResult.fatal "struct.error: unpack requires a buffer of 4 bytes" := rfl
example : strLower "CJT-Helper" = "cjt-helper" := rfl
example :
    ensure_clean_target_dir ["home", "u"] true ⟨true, ["opt", "CJT-HELPER"]⟩ ["old"]
      = (.cleaned, []) := rfl
example :
    ensure_clean_target_dir ["home", "u"] true ⟨true, ["opt", "stuff"]⟩ ["old"]
      = (.skippedUnsafe, ["old"]) := rfl
example :
    ensure_clean_target_dir ["home", "u"] true ⟨true, ["home", "u", ".cjt-helper", "auto-update"]⟩ ["old"]
      = (.cleaned, []) := rfl

example : (download_with_progress (fun _ => false) 10 [3, 3, 4] none).2 = .ok := by decide
example : (download_with_progress (fun _ => false) 10 [3, 3, 4] none).1 =
    [.progress "download" 30 (dlText 30), .progress "download" 60 (dlText 60),
     .progress "download" 100 (dlText 100)] := by decide
example : (download_with_progress (fun _ => true) 10 [3, 3, 4] none).2 =
    .canceled "已取消自动更新" := by decide
example : (download_with_progress (fun _ => false) 0 [3] (some "boom")).2 =
    .failed "boom" := by decide
example : extract_with_progress (fun _ => false) [] = ([], [], .ok) := by decide
example : (extract_with_progress (fun _ => false) ["a", "b"]).1 =
    [.progress "extract" 50 (exText 50), .progress "extract" 100 (exText 100)] := by decide
example : mainLoop ⟨id, id, fun _ => false⟩ (fun _ => none) ⟨false, false⟩ [0, 0, 0, 0, 7] =
    ([], .clean) := by
  have hr : read_message (fun _ => none) [0, 0, 0, 0, 7] = (.eos, [7]) := rfl
  rw [mainLoop.eq_def]
  split
  · rfl
  · rename_i e snd heq
    rw [hr] at heq
    simp at heq
  · rename_i c rest heq
    rw [hr] at heq
    simp at heq

lemma getLast?_cons_append_two {α : Type} (a x y : α) (l : List α) :
    (a :: (l ++ [x, y])).getLast? = some y := by
  have hx : a :: (l ++ [x, y]) = (a :: (l ++ [x])) ++ [y] := by simp
  rw [hx, List.getLast?_concat]

lemma progressPercents_nil : progressPercents [] = [] := rfl

lemma progressPercents_cons_progress (ph : String) (p : Nat) (t : String) (l : List Status) :
    progressPercents (Status.progress ph p t :: l) = p :: progressPercents l := rfl

/-- Core download-progress invariant: starting from `last ≤ downloaded*100/total`,
the emitted percentages are strictly increasing, all above `last`, and each is
the floor percentage of a cumulative byte count reached during the loop. -/
lemma downloadLoop_percents {cancel : Nat → Bool} {total : Nat} (dlErr : Option String)
    (ht : 0 < total) :
    ∀ (chunks : List Nat) (downloaded : Nat) (last : Int) (idx : Nat),
      last ≤ ((downloaded * 100 / total : Nat) : Int) →
      List.Pairwise (· < ·)
          (progressPercents (downloadLoop cancel total dlErr chunks downloaded last idx).1)
      ∧ ∀ p ∈ progressPercents (downloadLoop cancel total dlErr chunks downloaded last idx).1,
          last < (p : Int) ∧ ∃ d ∈ prefixSums chunks downloaded, p = d * 100 / total := by
  intro chunks
  induction chunks with
  | nil =>
    intro d l i hl
    rw [downloadLoop]
    split <;> simp [progressPercents]
  | cons c rest ih =>
    intro d l i hl
    have hmn : d * 100 / total ≤ (d + c) * 100 / total :=
      Nat.div_le_div_right (Nat.mul_le_mul_right 100 (Nat.le_add_right d c))
    have hl2 : l ≤ (((d + c) * 100 / total : Nat) : Int) :=
      le_trans hl (by exact_mod_cast hmn)
    rw [downloadLoop]
    by_cases hci : cancel i = true
    · simp [hci, progressPercents]
    · rw [if_neg hci]
      simp only [if_pos ht]
      by_cases hpc : (((d + c) * 100 / total : Nat) : Int) ≠ l
      · rw [if_pos hpc]
        obtain ⟨hpair, hmem⟩ := ih (d + c) (((d + c) * 100 / total : Nat) : Int) (i + 1)
          (le_refl _)
        simp only [progressPercents_cons_progress]
        constructor
        · refine List.Pairwise.cons ?_ hpair
          intro q hq
          exact_mod_cast (hmem q hq).1
        · intro p hp
          rcases List.mem_cons.mp hp with h | h
          · subst h
            refine ⟨lt_of_le_of_ne hl2 (Ne.symm hpc), ⟨d + c, ?_, rfl⟩⟩
            simp [prefixSums]
          · obtain ⟨hlt, dd, hdd, hpd⟩ := hmem p h
            refine ⟨lt_of_le_of_lt hl2 hlt, ⟨dd, ?_, hpd⟩⟩
            simp [prefixSums, hdd]
      · rw [if_neg hpc]
        push_neg at hpc
        obtain ⟨hpair, hmem⟩ := ih (d + c) l (i + 1) (le_of_eq hpc.symm)
        refine ⟨hpair, fun p hp => ?_⟩
        obtain ⟨hlt, dd, hdd, hpd⟩ := hmem p hp
        exact ⟨hlt, ⟨dd, by simp [prefixSums, hdd], hpd⟩⟩

/-- Closed form of the extraction loop when the cancellation flag is never
set: one progress status per member, each with the floor percentage of the
1-based member index, every member extracted, normal completion. -/
lemma extractLoop_no_cancel (total : Nat) :
    ∀ (members : List String) (k : Nat),
      extractLoop (fun _ => false) total members k =
        ((List.range members.length).map
          (fun i => Status.progress "extract" ((k + i + 1) * 100 / total)
            (exText ((k + i + 1) * 100 / total))),
         members, .ok) := by
  intro members
  induction members with
  | nil => intro k; rw [extractLoop]; simp
  | cons m rest ih =>
    intro k
    rw [extractLoop]
    rw [if_neg (by simp)]
    dsimp only
    rw [ih (k + 1)]
    have harg : ∀ i : Nat, k + 1 + i = k + (i + 1) := by intro i; omega
    simp [List.range_succ_eq_map, List.map_map, Function.comp, harg]

lemma extract_no_cancel_form {members : List String} (hne : members ≠ []) :
    extract_with_progress (fun _ => false) members =
      ((List.range members.length).map
        (fun i => Status.progress "extract" ((i + 1) * 100 / members.length)
          (exText ((i + 1) * 100 / members.length))),
       members, .ok) := by
  unfold extract_with_progress
  rw [if_neg (by simpa using hne)]
  rw [extractLoop_no_cancel members.length members 0]
  simp

lemma extract_no_cancel_ok (members : List String) :
    (extract_with_progress (fun _ => false) members).2.2 = .ok := by
  by_cases h : members = []
  · subst h; rfl
  · rw [extract_no_cancel_form h]

lemma extract_no_cancel_out_progress (members : List String) :
    ∀ s ∈ (extract_with_progress (fun _ => false) members).1,
      isProgressStatus s = true := by
  by_cases h : members = []
  · subst h; intro s hs; simp [extract_with_progress] at hs
  · rw [extract_no_cancel_form h]
    intro s hs
    simp only [List.mem_map] at hs
    obtain ⟨i, _, hi⟩ := hs
    subst hi
    rfl

/-- **C6**: for every download with a known total size greater than zero, each
emitted progress percentage equals `floor(downloaded*100/total)` at the
cumulative byte count of some processed chunk, and the emitted sequence is
strictly increasing — hence monotonically non-decreasing and with each value
(in particular each value in 0–100) emitted at most once. -/
theorem download_percents_floor_strict_mono (cancel : Nat → Bool) (total : Nat)
    (chunks : List Nat) (dlErr : Option String) (ht : 0 < total) :
    List.Pairwise (· < ·)
        (progressPercents (download_with_progress cancel total chunks dlErr).1)
    ∧ ∀ p ∈ progressPercents (download_with_progress cancel total chunks dlErr).1,
        ∃ d ∈ prefixSums chunks 0, p = d * 100 / total := by
  obtain ⟨h1, h2⟩ := downloadLoop_percents dlErr ht chunks 0 (-1) 0 (by norm_num)
  exact ⟨h1, fun p hp => (h2 p hp).2⟩

/-- Witness for C6 at a concrete transfer: total 10 bytes, chunks 3, 3, 4. -/
theorem download_percents_floor_strict_mono_witness :
    0 < 10
    ∧ (List.Pairwise (· < ·)
        (progressPercents (download_with_progress (fun _ => false) 10 [3, 3, 4] none).1)
    ∧ ∀ p ∈ progressPercents (download_with_progress (fun _ => false) 10 [3, 3, 4] none).1,
        ∃ d ∈ prefixSums [3, 3, 4] 0, p = d * 100 / 10) :=
  ⟨by norm_num,
   download_percents_floor_strict_mono (fun _ => false) 10 [3, 3, 4] none (by norm_num)⟩

/-- **C7**: a zero-member archive makes `extract_with_progress` return
immediately with no progress events and no error, and the surrounding update
pipeline still ends in the `complete` status; an archive with `n > 0` members
yields exactly one progress event per member, the i-th (1-based) carrying
percentage `floor(i*100/n)`. -/
theorem extract_zero_members_and_per_member_progress :
    (∀ cancel : Nat → Bool, extract_with_progress cancel [] = ([], [], .ok))
    ∧ (∀ (home : List String) (cancelE : Nat → Bool) (total : Nat)
        (chunks : List Nat) (u : String) (mt : Option PPath) (te : Bool)
        (tc : List String),
        u.isEmpty = false →
        (handle_start_update home (fun _ => false) cancelE total chunks none []
            (some u) mt te tc).1.getLast?
          = some (.complete (resolve_target_dir home mt)))
    ∧ (∀ members : List String, members ≠ [] →
        (extract_with_progress (fun _ => false) members).1 =
          (List.range members.length).map
            (fun i => Status.progress "extract" ((i + 1) * 100 / members.length)
              (exText ((i + 1) * 100 / members.length)))) := by
  refine ⟨fun cancel => rfl, ?_, ?_⟩
  · intro home cancelE total chunks u mt te tc hu
    have hdl : (download_with_progress (fun _ => false) total chunks none).2 = .ok := by
      simpa [readEndResult] using downloadLoop_no_cancel total none chunks 0 (-1) 0
    simp only [handle_start_update, optFalsy, hu, Bool.false_eq_true, if_false, hdl]
    simp [extract_with_progress]
    exact getLast?_cons_append_two _ _ _ _
  · intro members hne
    rw [extract_no_cancel_form hne]

/-- Witness for C7: the zero-member pipeline at concrete inputs and a
two-member archive. -/
theorem extract_zero_members_and_per_member_progress_witness :
    ("u".isEmpty = false
      ∧ (handle_start_update [] (fun _ => false) (fun _ => false) 1 [] none []
          (some "u") none true []).1.getLast?
        = some (.complete (resolve_target_dir [] none)))
    ∧ (["a", "b"] ≠ ([] : List String)
      ∧ (extract_with_progress (fun _ => false) ["a", "b"]).1 =
          (List.range (["a", "b"] : List String).length).map
            (fun i => Status.progress "extract" ((i + 1) * 100 / (["a", "b"] : List String).length)
              (exText ((i + 1) * 100 / (["a", "b"] : List String).length)))) :=
  ⟨⟨rfl, extract_zero_members_and_per_member_progress.2.1 [] (fun _ => false) 1 [] "u"
      none true [] rfl⟩,
   ⟨by simp, extract_zero_members_and_per_member_progress.2.2 ["a", "b"] (by simp)⟩⟩

lemma countError_cons (a : Status) (l : List Status) :
    countError (a :: l) = countError [a] + countError l := by
  simpa using countError_append [a] l

lemma countCanceled_cons (a : Status) (l : List Status) :
    countCanceled (a :: l) = countCanceled [a] + countCanceled l := by
  simpa using countCanceled_append [a] l

lemma countComplete_cons (a : Status) (l : List Status) :
    countComplete (a :: l) = countComplete [a] + countComplete l := by
  simpa using countComplete_append [a] l

lemma countError_log (t : String) : countError [Status.log t] = 0 := rfl
lemma countCanceled_log (t : String) : countCanceled [Status.log t] = 0 := rfl
lemma countComplete_log (t : String) : countComplete [Status.log t] = 0 := rfl

/-- Counts of a transcript of the shape start-log, progress-only body, one
terminal status: only the terminal matters. -/
lemma transcript_counts (A : String) (l : List Status)
    (hl : ∀ s ∈ l, isProgressStatus s = true) (x : Status) :
    countError ((Status.log A :: l) ++ [x]) = countError [x]
    ∧ countCanceled ((Status.log A :: l) ++ [x]) = countCanceled [x]
    ∧ countComplete ((Status.log A :: l) ++ [x]) = countComplete [x] := by
  obtain ⟨hc, he, hk⟩ := counts_of_all_progress hl
  refine ⟨?_, ?_, ?_⟩
  · rw [countError_append, countError_cons, countError_log, he]
    omega
  · rw [countCanceled_append, countCanceled_cons, countCanceled_log, hc]
    omega
  · rw [countComplete_append, countComplete_cons, countComplete_log, hk]
    omega

/-- **C2**: a `start_update` received while the update thread is alive makes
the session loop emit exactly one `error` status; the state — thread slot and
cancellation flag included — is left untouched, and no new task is spawned. -/
theorem start_update_rejected_while_running (os : OSModel) (s : HostState)
    (m : Command) (hcmd : m.cmd = some "start_update")
    (halive : s.updateThreadAlive = true) :
    step os s m = (s, [.error "已有更新任务正在执行"]) := by
  cases m with
  | mk cmd du td p =>
    dsimp only at hcmd
    subst hcmd
    have h3 : step os s ⟨some "start_update", du, td, p⟩ =
        (if s.updateThreadAlive then (s, [.error "已有更新任务正在执行"])
         else ({ updateThreadAlive := true, cancelEvent := false }, [])) := rfl
    rw [h3, if_pos (by simp [halive])]

/-- Witness for C2: rejection in the concrete running state. -/
theorem start_update_rejected_while_running_witness :
    (Command.mk (some "start_update") none none none).cmd = some "start_update"
    ∧ (HostState.mk true false).updateThreadAlive = true
    ∧ step osFixture ⟨true, false⟩ ⟨some "start_update", none, none, none⟩
      = (⟨true, false⟩, [.error "已有更新任务正在执行"]) :=
  ⟨rfl, rfl,
   start_update_rejected_while_running osFixture ⟨true, false⟩
     ⟨some "start_update", none, none, none⟩ rfl rfl⟩

/-- **C4**: with an existing target directory, if the download does not
succeed (fails or is canceled), the update attempt leaves the target
directory contents unchanged — cleaning happens only after download success —
and emits exactly one terminal `error`-or-`canceled` status and no
`complete`. -/
theorem clean_only_after_download_success (home : List String)
    (cancelD cancelE : Nat → Bool) (total : Nat) (chunks : List Nat)
    (dlErr : Option String) (members : List String) (u : String)
    (mt : Option PPath) (contents : List String)
    (hu : u.isEmpty = false)
    (hdl : (download_with_progress cancelD total chunks dlErr).2 ≠ .ok) :
    (handle_start_update home cancelD cancelE total chunks dlErr members
        (some u) mt true contents).2 = contents
    ∧ countError (handle_start_update home cancelD cancelE total chunks dlErr members
          (some u) mt true contents).1
      + countCanceled (handle_start_update home cancelD cancelE total chunks dlErr members
          (some u) mt true contents).1 = 1
    ∧ countComplete (handle_start_update home cancelD cancelE total chunks dlErr members
          (some u) mt true contents).1 = 0 := by
  have hprog : ∀ s ∈ (download_with_progress cancelD total chunks dlErr).1,
      isProgressStatus s = true :=
    downloadLoop_out_progress cancelD total dlErr chunks 0 (-1) 0
  simp only [handle_start_update, optFalsy, hu, Bool.false_eq_true, if_false]
  cases hres : (download_with_progress cancelD total chunks dlErr).2 with
  | ok => exact absurd hres hdl
  | canceled t =>
    obtain ⟨he, hc, hk⟩ := transcript_counts "开始下载更新包..."
      (download_with_progress cancelD total chunks dlErr).1 hprog (Status.canceled t)
    exact ⟨by simp, by rw [he, hc]; rfl, by rw [hk]; rfl⟩
  | failed t =>
    obtain ⟨he, hc, hk⟩ := transcript_counts "开始下载更新包..."
      (download_with_progress cancelD total chunks dlErr).1 hprog (Status.error t)
    exact ⟨by simp, by rw [he, hc]; rfl, by rw [hk]; rfl⟩

/-- Witness for C4: unreachable URL modelled as an immediate read failure
(no chunks, `dlErr` set), target contents `["keep"]`. -/
theorem clean_only_after_download_success_witness :
    ("u".isEmpty = false
    ∧ (download_with_progress (fun _ => false) 0 [] (some "boom")).2 ≠ .ok)
    ∧ ((handle_start_update ["home"] (fun _ => false) (fun _ => false) 0 []
          (some "boom") [] (some "u") none true ["keep"]).2 = ["keep"]
    ∧ countError (handle_start_update ["home"] (fun _ => false) (fun _ => false) 0 []
          (some "boom") [] (some "u") none true ["keep"]).1
      + countCanceled (handle_start_update ["home"] (fun _ => false) (fun _ => false) 0 []
          (some "boom") [] (some "u") none true ["keep"]).1 = 1
    ∧ countComplete (handle_start_update ["home"] (fun _ => false) (fun _ => false) 0 []
          (some "boom") [] (some "u") none true ["keep"]).1 = 0) :=
  ⟨⟨rfl, by decide⟩,
   clean_only_after_download_success ["home"] (fun _ => false) (fun _ => false) 0 []
     (some "boom") [] "u" none ["keep"] rfl (by decide)⟩

/-- **C5**: `cancel_update` sets the cancellation flag and immediately emits
one acknowledgement log, without touching the running thread slot; and any
update whose download observes the flag set at a checkpoint it reaches ends
with exactly one `canceled` status (no `error`, no `complete`). -/
theorem cancel_update_ack_and_single_canceled :
    (∀ (os : OSModel) (s : HostState) (du td p : Option String),
      step os s ⟨some "cancel_update", du, td, p⟩ =
        ({ s with cancelEvent := true }, [.log "已发送取消指令"]))
    ∧ (∀ (home : List String) (cancelD cancelE : Nat → Bool) (total : Nat)
        (chunks : List Nat) (dlErr : Option String) (members : List String)
        (u : String) (mt : Option PPath) (te : Bool) (tc : List String),
        u.isEmpty = false →
        (∃ j, j ≤ chunks.length ∧ cancelD j = true) →
        countCanceled (handle_start_update home cancelD cancelE total chunks dlErr
            members (some u) mt te tc).1 = 1
        ∧ countError (handle_start_update home cancelD cancelE total chunks dlErr
            members (some u) mt te tc).1 = 0
        ∧ countComplete (handle_start_update home cancelD cancelE total chunks dlErr
            members (some u) mt te tc).1 = 0) := by
  constructor
  · intro os s du td p
    rfl
  · intro home cancelD cancelE total chunks dlErr members u mt te tc hu hset
    obtain ⟨j, hj, hcj⟩ := hset
    have hres : (download_with_progress cancelD total chunks dlErr).2 =
        .canceled "已取消自动更新" :=
      downloadLoop_canceled total dlErr chunks 0 (-1) 0 j (Nat.zero_le j)
        (by simpa using hj) hcj
    have hprog : ∀ s ∈ (download_with_progress cancelD total chunks dlErr).1,
        isProgressStatus s = true :=
      downloadLoop_out_progress cancelD total dlErr chunks 0 (-1) 0
    obtain ⟨he, hc, hk⟩ := transcript_counts "开始下载更新包..."
      (download_with_progress cancelD total chunks dlErr).1 hprog
      (Status.canceled "已取消自动更新")
    simp only [handle_start_update, optFalsy, hu, Bool.false_eq_true, if_false, hres]
    exact ⟨by rw [hc]; rfl, by rw [he]; rfl, by rw [hk]; rfl⟩

/-- Witness for C5: flag set from checkpoint 0 on, one pending chunk. -/
theorem cancel_update_ack_and_single_canceled_witness :
    (step osFixture ⟨true, false⟩ ⟨some "cancel_update", none, none, none⟩ =
      ({ updateThreadAlive := true, cancelEvent := true }, [.log "已发送取消指令"]))
    ∧ ("u".isEmpty = false ∧ (∃ j, j ≤ ([7] : List Nat).length ∧ (fun _ => true) j = true))
    ∧ (countCanceled (handle_start_update ["home"] (fun _ => true) (fun _ => false)
          10 [7] none [] (some "u") none true []).1 = 1
      ∧ countError (handle_start_update ["home"] (fun _ => true) (fun _ => false)
          10 [7] none [] (some "u") none true []).1 = 0
      ∧ countComplete (handle_start_update ["home"] (fun _ => true) (fun _ => false)
          10 [7] none [] (some "u") none true []).1 = 0) :=
  ⟨cancel_update_ack_and_single_canceled.1 osFixture ⟨true, false⟩ none none none,
   ⟨rfl, ⟨0, by simp⟩⟩,
   cancel_update_ack_and_single_canceled.2 ["home"] (fun _ => true) (fun _ => false)
     10 [7] none [] "u" none true [] rfl ⟨0, by simp⟩⟩

/-- **C10**: accepting `start_update` clears the cancellation flag before the
task is spawned: the accepted step always leaves `cancelEvent = false`; a
`cancel_update` issued while no task is running is erased by the next accepted
`start_update`; and a pipeline whose flag is never set emits no `canceled`
status at all. -/
theorem cancel_cleared_on_accept :
    (∀ (os : OSModel) (s : HostState) (m : Command),
      m.cmd = some "start_update" → s.updateThreadAlive = false →
      step os s m = ({ updateThreadAlive := true, cancelEvent := false }, []))
    ∧ (∀ (os : OSModel) (s : HostState) (du td p du2 td2 p2 : Option String),
      s.updateThreadAlive = false →
      (step os (step os s ⟨some "cancel_update", du, td, p⟩).1
          ⟨some "start_update", du2, td2, p2⟩).1
        = { updateThreadAlive := true, cancelEvent := false })
    ∧ (∀ (home : List String) (total : Nat) (chunks : List Nat)
        (dlErr : Option String) (members : List String) (url : Option String)
        (mt : Option PPath) (te : Bool) (tc : List String),
      countCanceled (handle_start_update home (fun _ => false) (fun _ => false)
          total chunks dlErr members url mt te tc).1 = 0) := by
  refine ⟨?_, ?_, ?_⟩
  · intro os s m hcmd halive
    cases m with
    | mk cmd du td p =>
      dsimp only at hcmd
      subst hcmd
      have h3 : step os s ⟨some "start_update", du, td, p⟩ =
          (if s.updateThreadAlive then (s, [.error "已有更新任务正在执行"])
           else ({ updateThreadAlive := true, cancelEvent := false }, [])) := rfl
      rw [h3, if_neg (by simp [halive])]
  · intro os s du td p du2 td2 p2 halive
    have h1 : step os s ⟨some "cancel_update", du, td, p⟩ =
        ({ s with cancelEvent := true }, [.log "已发送取消指令"]) := rfl
    rw [h1]
    have h3 : step os { s with cancelEvent := true } ⟨some "start_update", du2, td2, p2⟩ =
        (if ({ s with cancelEvent := true } : HostState).updateThreadAlive then
          ({ s with cancelEvent := true }, [.error "已有更新任务正在执行"])
         else ({ updateThreadAlive := true, cancelEvent := false }, [])) := rfl
    rw [h3, if_neg (by simp [halive])]
  · intro home total chunks dlErr members url mt te tc
    have hprog : ∀ s ∈ (download_with_progress (fun _ => false) total chunks dlErr).1,
        isProgressStatus s = true :=
      downloadLoop_out_progress (fun _ => false) total dlErr chunks 0 (-1) 0
    obtain ⟨hcD, heD, hkD⟩ := counts_of_all_progress hprog
    obtain ⟨hcE, heE, hkE⟩ := counts_of_all_progress (extract_no_cancel_out_progress members)
    cases url with
    | none => simp [handle_start_update, optFalsy, countCanceled, List.filter]
    | some u =>
      by_cases hu : u.isEmpty
      · simp [handle_start_update, optFalsy, hu, countCanceled, List.filter]
      · have hu2 : u.isEmpty = false := by simpa using hu
        have hdl2 : (download_with_progress (fun _ => false) total chunks dlErr).2 =
            readEndResult dlErr :=
          downloadLoop_no_cancel total dlErr chunks 0 (-1) 0
        simp only [handle_start_update, optFalsy, hu2, Bool.false_eq_true, if_false]
        cases dlErr with
        | some e =>
          rw [show (download_with_progress (fun _ => false) total chunks (some e)).2 =
              .failed e from hdl2]
          obtain ⟨he, hc, hk⟩ := transcript_counts "开始下载更新包..."
            (download_with_progress (fun _ => false) total chunks (some e)).1 hprog
            (Status.error e)
          rw [hc]; rfl
        | none =>
          rw [show (download_with_progress (fun _ => false) total chunks none).2 =
              .ok from hdl2]
          rw [extract_no_cancel_ok members]
          rw [countCanceled_append, countCanceled_append, countCanceled_append,
              countCanceled_cons, countCanceled_log, hcD, hcE]
          rfl

/-- Witness for C10: accept from idle, and cancel-then-start from idle. -/
theorem cancel_cleared_on_accept_witness :
    ((Command.mk (some "start_update") none none none).cmd = some "start_update"
      ∧ (HostState.mk false true).updateThreadAlive = false
      ∧ step osFixture ⟨false, true⟩ ⟨some "start_update", none, none, none⟩
        = ({ updateThreadAlive := true, cancelEvent := false }, []))
    ∧ ((HostState.mk false false).updateThreadAlive = false
      ∧ (step osFixture
            (step osFixture ⟨false, false⟩ ⟨some "cancel_update", none, none, none⟩).1
            ⟨some "start_update", none, none, none⟩).1
        = { updateThreadAlive := true, cancelEvent := false }) :=
  ⟨⟨rfl, rfl,
    cancel_cleared_on_accept.1 osFixture ⟨false, true⟩
      ⟨some "start_update", none, none, none⟩ rfl rfl⟩,
   ⟨rfl, cancel_cleared_on_accept.2.1 osFixture ⟨false, false⟩
      none none none none none none rfl⟩⟩

/-- **C8** (amended): the `check_install_dir` reply is `{ok:false, path:"",
text:"目录为空"}` when the path normalizes to the empty string (in particular
for the empty path, whose reply carries an empty — not non-empty — path);
`{ok:true}` with the non-empty normalized path for an existing directory; and
`{ok:false}` with the non-empty normalized path and non-empty reason text
otherwise. -/
theorem check_install_dir_reply_characterization (os : OSModel) (s : HostState)
    (du td pth : Option String) :
    ((normalize_path os (pth.getD "")).isEmpty = true →
      step os s ⟨some "check_install_dir", du, td, pth⟩ =
        (s, [.checkInstallDir false "" (some "目录为空")]))
    ∧ ((normalize_path os (pth.getD "")).isEmpty = false →
        os.isdir (normalize_path os (pth.getD "")) = true →
      step os s ⟨some "check_install_dir", du, td, pth⟩ =
        (s, [.checkInstallDir true (normalize_path os (pth.getD "")) none]))
    ∧ ((normalize_path os (pth.getD "")).isEmpty = false →
        os.isdir (normalize_path os (pth.getD "")) = false →
      step os s ⟨some "check_install_dir", du, td, pth⟩ =
        (s, [.checkInstallDir false (normalize_path os (pth.getD ""))
              (some "目录不存在或不是文件夹")])) := by
  have hstep : step os s ⟨some "check_install_dir", du, td, pth⟩ =
      (if (check_install_dir os (pth.getD "")).1 then
        (s, [.checkInstallDir true (check_install_dir os (pth.getD "")).2.1 none])
       else
        (s, [.checkInstallDir false (check_install_dir os (pth.getD "")).2.1
              (some (check_install_dir os (pth.getD "")).2.2)])) := rfl
  refine ⟨?_, ?_, ?_⟩
  · intro h1
    have hcid : check_install_dir os (pth.getD "") = (false, "", "目录为空") := by
      simp [check_install_dir, h1]
    rw [hstep, hcid]
    simp
  · intro h1 h2
    have hcid : check_install_dir os (pth.getD "") =
        (true, normalize_path os (pth.getD ""), "") := by
      simp [check_install_dir, h1, h2]
    rw [hstep, hcid]
    simp
  · intro h1 h2
    have hcid : check_install_dir os (pth.getD "") =
        (false, normalize_path os (pth.getD ""), "目录不存在或不是文件夹") := by
      simp [check_install_dir, h1, h2]
    rw [hstep, hcid]
    simp

/-- Counterexample to C8 as stated: the empty path does not name an existing
directory, yet the reply carries an empty `path`, not a non-empty one. -/
theorem check_install_dir_empty_path_reply :
    step osFixture ⟨false, false⟩ ⟨some "check_install_dir", none, none, some ""⟩ =
      (⟨false, false⟩, [.checkInstallDir false "" (some "目录为空")])
    ∧ ("" : String).isEmpty = true := ⟨rfl, rfl⟩

/-- Witness for C8 at a non-empty path that is not a directory. -/
theorem check_install_dir_reply_characterization_witness :
    ((normalize_path osFixture ((some "/x").getD "")).isEmpty = false
      ∧ osFixture.isdir (normalize_path osFixture ((some "/x").getD "")) = false)
    ∧ step osFixture ⟨false, false⟩ ⟨some "check_install_dir", none, none, some "/x"⟩ =
        (⟨false, false⟩,
         [.checkInstallDir false (normalize_path osFixture ((some "/x").getD ""))
            (some "目录不存在或不是文件夹")]) :=
  ⟨⟨rfl, rfl⟩,
   (check_install_dir_reply_characterization osFixture ⟨false, false⟩
      none none (some "/x")).2.2 rfl rfl⟩

/-- **C9**: a frame whose 4-byte length prefix declares length zero makes
`read_message` return the end-of-stream signal (not an empty message), and
the session loop then stops cleanly. -/
theorem zero_length_prefix_eos_clean_stop (decode : List Byte → Option Command)
    (os : OSModel) (s : HostState) (rest : List Byte) :
    read_message decode (0 :: 0 :: 0 :: 0 :: rest) = (.eos, rest)
    ∧ mainLoop os decode s (0 :: 0 :: 0 :: 0 :: rest) = ([], .clean) := by
  have hr : read_message decode (0 :: 0 :: 0 :: 0 :: rest) = (.eos, rest) := rfl
  refine ⟨hr, ?_⟩
  rw [mainLoop.eq_def]
  split
  · rfl
  · rename_i e snd heq
    rw [hr] at heq
    simp at heq
  · rename_i c r2 heq
    rw [hr] at heq
    simp at heq

/-- One-step reduction of `read_message` once a full 4-byte prefix is
available. -/
lemma read_message_four (decode : List Byte → Option Command)
    (b0 b1 b2 b3 : Byte) (rest : List Byte) :
    read_message decode (b0 :: b1 :: b2 :: b3 :: rest) =
      (let len := decodeLE32 [b0, b1, b2, b3]
       let body := rest.take len
       if body.isEmpty then (.eos, rest.drop len)
       else match decode body with
        | none => (.fatal "json.decoder.JSONDecodeError", [])
        | some c => (.msg c, rest.drop len)) := rfl

/-- Counterexample to C3 as stated: the frame `[4,0,0,0]` has a successfully
read length prefix declaring a 4-byte body, the body yields zero bytes, and
`read_message` returns the end-of-stream signal instead of failing loudly. -/
theorem read_message_truncated_body_eos :
    decodeLE32 [4, 0, 0, 0] = 4
    ∧ read_message (fun _ => none) [4, 0, 0, 0] = (.eos, []) := ⟨rfl, rfl⟩

/-- **C3** (amended): for a frame whose 4-byte prefix is read but whose body
yields fewer bytes than declared, `read_message` returns the end-of-stream
signal when the body yields zero bytes; when it yields a nonempty truncated
byte string, the truncated bytes go to the JSON decoder unchecked —
`read_message` raises (fatally) exactly when they fail to decode, and
otherwise silently returns the short-read object. -/
theorem read_message_truncated_body_behavior
    (decode : List Byte → Option Command) (b0 b1 b2 b3 : Byte) (rest : List Byte)
    (hshort : rest.length < decodeLE32 [b0, b1, b2, b3]) :
    (rest = [] →
      read_message decode (b0 :: b1 :: b2 :: b3 :: rest) = (.eos, []))
    ∧ (rest ≠ [] →
      read_message decode (b0 :: b1 :: b2 :: b3 :: rest) =
        (match decode rest with
         | none => (.fatal "json.decoder.JSONDecodeError", [])
         | some c => (.msg c, []))) := by
  have htake : List.take (decodeLE32 [b0, b1, b2, b3]) rest = rest :=
    List.take_of_length_le (le_of_lt hshort)
  have hdrop : List.drop (decodeLE32 [b0, b1, b2, b3]) rest = [] :=
    List.drop_eq_nil_of_le (le_of_lt hshort)
  rw [read_message_four]
  constructor
  · intro h
    subst h
    simp
  · intro h
    simp only [htake, hdrop]
    rw [if_neg (by simpa using h)]

/-- Witness for C3 at the frame `[4,0,0,0,49]`: one body byte against four
declared, and a decoder that rejects it. -/
theorem read_message_truncated_body_behavior_witness :
    (([49] : List Byte).length < decodeLE32 [4, 0, 0, 0] ∧ ([49] : List Byte) ≠ [])
    ∧ read_message (fun _ => none) [4, 0, 0, 0, 49] =
        (.fatal "json.decoder.JSONDecodeError", []) :=
  ⟨⟨by decide, by decide⟩,
   by simpa using
     (read_message_truncated_body_behavior (fun _ => none) 4 0 0 0 [49]
       (by decide)).2 (by decide)⟩

/-- **C1** (amended): for an existing directory, `ensure_clean_target_dir`
removes the children exactly when the path is absolute and either nested
under the safe root `~/.cjt-helper` (itself included) or has a final segment
that matches `cjt-helper` case-insensitively (the code lowercases the
basename before comparing); in every other case it logs and returns with the
contents untouched. -/
theorem ensure_clean_scope_case_insensitive (home : List String) (target : PPath)
    (contents : List String) :
    ((ensure_clean_target_dir home true target contents).1 = .cleaned ↔
      (target.abs = true ∧
        (segsUnder (home ++ [".cjt-helper"]) target.segs = true ∨
          strLower (target.segs.getLastD "") = "cjt-helper")))
    ∧ ((ensure_clean_target_dir home true target contents).1 ≠ .cleaned →
        (ensure_clean_target_dir home true target contents).2 = contents)
    ∧ ((ensure_clean_target_dir home true target contents).1 = .cleaned →
        (ensure_clean_target_dir home true target contents).2 = []) := by
  by_cases habs : target.abs = true
  · by_cases hunder : segsUnder (home ++ [".cjt-helper"]) target.segs = true
    · simp [ensure_clean_target_dir, habs, hunder]
    · by_cases hname : strLower (target.segs.getLastD "") = "cjt-helper"
      · rw [List.getLastD_eq_getLast?] at hname
        simp [ensure_clean_target_dir, habs, hunder, hname]
      · rw [List.getLastD_eq_getLast?] at hname
        simp [ensure_clean_target_dir, habs, hunder, hname]
  · simp [ensure_clean_target_dir, habs]

/-- Counterexample to C1 as stated: `/opt/CJT-HELPER` is outside the safe
root and its final segment differs from `cjt-helper`, yet its children are
removed (the comparison is case-insensitive). -/
theorem ensure_clean_uppercase_basename_cleaned :
    ensure_clean_target_dir ["home", "u"] true ⟨true, ["opt", "CJT-HELPER"]⟩ ["old"]
      = (.cleaned, [])
    ∧ segsUnder (["home", "u"] ++ [".cjt-helper"]) ["opt", "CJT-HELPER"] = false
    ∧ ¬ ((["opt", "CJT-HELPER"] : List String).getLastD "" = "cjt-helper") :=
  ⟨rfl, rfl, by decide⟩

/-- Witness for C1 at a relative path: not cleaned, contents untouched. -/
theorem ensure_clean_scope_case_insensitive_witness :
    (ensure_clean_target_dir ["home", "u"] true ⟨false, ["x"]⟩ ["old"]).1 ≠ .cleaned
    ∧ (ensure_clean_target_dir ["home", "u"] true ⟨false, ["x"]⟩ ["old"]).2 = ["old"] :=
  ⟨by decide,
   (ensure_clean_scope_case_insensitive ["home", "u"] ⟨false, ["x"]⟩ ["old"]).2.1
     (by decide)⟩
